import Mathlib

/-!
# Verification of the handsfree-gui-control gaze pipeline

Shallow embedding of the core algorithmic code of the repository:

* `src/main_interface.py` — `MainInterface.check_gaze`: per-tick projection of the
  latest gaze offsets through the persisted calibration table, exponential
  smoothing of the cursor, and the dwell/click state machine over the current
  button list.
* `src/calibration_ui.py` — `CalibrationWindow.run_evaluation`: the offline
  accuracy evaluator over the persisted calibration table.

Conventions of the embedding:

* Python floats are modelled as exact rationals (`ℚ`); decimal literals of the
  source (`0.2`, `0.8`, `0.01`) are the rationals `1/5`, `4/5`, `1/100`.
* Python's `int(...)` builtin truncates toward zero; it is modelled by `pyInt`.
* Euclidean distances in the evaluator involve square roots; all distance
  comparisons and distance data are therefore carried on *squared* distances
  (for nonnegative `d` and `t`, `d < t ↔ d^2 < t^2`), which keeps every
  definition executable over `ℚ`.
-/

namespace HandsFree

/-- Python's `int(x)` applied to a real-valued expression: truncation toward
zero. -/
def pyInt (q : ℚ) : ℤ := if 0 ≤ q then ⌊q⌋ else ⌈q⌉

/-- `max` of a nonempty collection `x :: l`, as Python's `max(...)`. -/
def maxOf (x : ℚ) (l : List ℚ) : ℚ := l.foldl max x

/-- `min` of a nonempty collection `x :: l`, as Python's `min(...)`. -/
def minOf (x : ℚ) (l : List ℚ) : ℚ := l.foldl min x

/-- An axis-aligned button rectangle in absolute screen pixels, after
`btn.mapToGlobal` / `moveTopLeft` in the source. Qt's `QRect.contains` is
edge-inclusive, with `right = left + width - 1`. -/
structure Rect where
  left : ℤ
  top : ℤ
  right : ℤ
  bottom : ℤ
deriving DecidableEq, Repr

/-- `QRect.contains(QPoint(x, y))` — edges included. -/
def Rect.containsP (r : Rect) (x y : ℤ) : Bool :=
  decide (r.left ≤ x) && decide (x ≤ r.right) &&
  decide (r.top ≤ y) && decide (y ≤ r.bottom)

/-- One value of the persisted calibration table `calibration_data.json`:
the 5-tuple `[sampleCount, reserved, meanDx, meanDy, meanWidth]`.
`main_interface.py` reads only indices 2 (`dx`) and 3 (`dy`). -/
structure CalibRecord where
  count : ℚ
  reserved : ℚ
  dx : ℚ
  dy : ℚ
  width : ℚ
deriving DecidableEq, Repr

/-- The persisted calibration table, keyed by anchor name (Python `dict`,
insertion-ordered; `.values()` is the list of second components). -/
abbrev CalibTable := List (String × CalibRecord)

/-- Qt `QElapsedTimer` as used by the source: `some s` is a timer last
`restart()`ed at time `s` (milliseconds), `none` is an `invalidate()`d timer.

`hasExpired(timeout)` is implemented in Qt as
`quint64(elapsed()) > quint64(timeout)`, with no validity check.
`invalidate()` stores the sentinel `0x8000000000000000` in both time fields, so
`elapsed()` of an invalidated timer wraps to a huge value whose unsigned
comparison against any small timeout is true: an invalidated timer reports as
already expired. -/
def hasExpired : Option ℤ → ℤ → ℤ → Bool
  | some s, now, timeout => decide (now - s > timeout)
  | none, _, _ => true

/-- Dwell state of `MainInterface`: `self.hovered_button` (a button is
identified by its index in the current button list, modelling Python object
identity) and `self.hover_timer`. -/
structure DwellState where
  hovered : Option ℕ
  timer : Option ℤ
deriving DecidableEq, Repr

/-- The per-tick mutable state of `MainInterface` read and written by
`check_gaze`: `self.prev_cursor_pos` and the dwell state. -/
structure GazeState where
  prevCursor : ℤ × ℤ
  dwell : DwellState
deriving DecidableEq, Repr

/-- Result of one `check_gaze` tick: the updated state, the point passed to
`pyautogui.moveTo`, and the button clicked this tick (if any). -/
structure GazeResult where
  state : GazeState
  moveTo : ℤ × ℤ
  clicked : Option ℕ
deriving DecidableEq, Repr

/-- The two exceptions the tick can actually raise: `ValueError` from
`max()`/`min()` of an empty sequence, and `KeyError` from
`calibration_points['Center']`. -/
inductive PyError where
  | valueError
  | keyError
deriving DecidableEq, Repr

/-- `MainInterface.check_gaze` (src/main_interface.py, lines 66–121), one tick.

Inputs: screen size `W × H` (`pyautogui.size()`), the loaded calibration table
(`calibration_points`), the current button list in global coordinates
(`self.buttons`), the current clock reading `now` in ms (the time against which
`hover_timer.restart()`/`elapsed()` are measured), the latest gaze offsets
`(sdx, sdy)` from `gaze_tracker.get_latest_offsets()`, and the current state.

Faithful translation notes: `INVERT_X = True`, `INVERT_Y = False`; the ranges
are clamped below by `0.01`; scales are capped at `40000`; `screen_w // 2` is
integer division; the button loop tests the *projected clamped* point
`(screen_x, screen_y)` and stops at the first containing button (`break`);
the `for`'s `else` clause (no containing button) clears the hover state. -/
def check_gaze (W H : ℕ) (table : CalibTable) (buttons : List Rect)
    (now : ℤ) (sdx sdy : ℚ) (st : GazeState) : Except PyError GazeResult :=
  match table with
  | [] => .error .valueError
  | e :: rest =>
    let CENTER_X : ℤ := (W / 2 : ℕ)
    let CENTER_Y : ℤ := (H / 2 : ℕ)
    let dir_x : ℚ := -1
    let dir_y : ℚ := 1
    let all_dx := (e :: rest).map fun p => p.2.dx
    let all_dy := (e :: rest).map fun p => p.2.dy
    let dx_range := max (maxOf all_dx.head! all_dx.tail - minOf all_dx.head! all_dx.tail) (1/100)
    let dy_range := max (maxOf all_dy.head! all_dy.tail - minOf all_dy.head! all_dy.tail) (1/100)
    let SCALE_X : ℚ := min ((W : ℚ) / (dx_range * (4/5))) 40000
    let SCALE_Y : ℚ := min ((H : ℚ) / (dy_range * (4/5))) 40000
    match (e :: rest).lookup "Center" with
    | none => .error .keyError
    | some c =>
      let dx_relative := sdx - c.dx
      let dy_relative := sdy - c.dy
      let screen_x := max 0 (min ((W : ℤ) - 1) (CENTER_X + pyInt (dir_x * dx_relative * SCALE_X)))
      let screen_y := max 0 (min ((H : ℤ) - 1) (CENTER_Y + pyInt (dir_y * dy_relative * SCALE_Y)))
      let smooth_x := pyInt ((st.prevCursor.1 : ℚ) + (1/5) * ((screen_x : ℚ) - (st.prevCursor.1 : ℚ)))
      let smooth_y := pyInt ((st.prevCursor.2 : ℚ) + (1/5) * ((screen_y : ℚ) - (st.prevCursor.2 : ℚ)))
      match buttons.findIdx? fun b => b.containsP screen_x screen_y with
      | some i =>
        if st.dwell.hovered ≠ some i then
          .ok ⟨⟨(smooth_x, smooth_y), ⟨some i, some now⟩⟩, (smooth_x, smooth_y), none⟩
        else if hasExpired st.dwell.timer now 2000 then
          .ok ⟨⟨(smooth_x, smooth_y), ⟨some i, none⟩⟩, (smooth_x, smooth_y), some i⟩
        else
          .ok ⟨⟨(smooth_x, smooth_y), st.dwell⟩, (smooth_x, smooth_y), none⟩
      | none =>
        .ok ⟨⟨(smooth_x, smooth_y), ⟨none, none⟩⟩, (smooth_x, smooth_y), none⟩

/-- The projection part of `check_gaze` (lines 68–96) in isolation: maps the
latest offsets through the calibration table to the clamped screen point
`(screen_x, screen_y)`. `none` when the tick would raise
(`ValueError`/`KeyError`). -/
def projectPoint (W H : ℕ) (table : CalibTable) (sdx sdy : ℚ) : Option (ℤ × ℤ) :=
  match table with
  | [] => none
  | e :: rest =>
    let CENTER_X : ℤ := (W / 2 : ℕ)
    let CENTER_Y : ℤ := (H / 2 : ℕ)
    let dir_x : ℚ := -1
    let dir_y : ℚ := 1
    let all_dx := (e :: rest).map fun p => p.2.dx
    let all_dy := (e :: rest).map fun p => p.2.dy
    let dx_range := max (maxOf all_dx.head! all_dx.tail - minOf all_dx.head! all_dx.tail) (1/100)
    let dy_range := max (maxOf all_dy.head! all_dy.tail - minOf all_dy.head! all_dy.tail) (1/100)
    let SCALE_X : ℚ := min ((W : ℚ) / (dx_range * (4/5))) 40000
    let SCALE_Y : ℚ := min ((H : ℚ) / (dy_range * (4/5))) 40000
    match (e :: rest).lookup "Center" with
    | none => none
    | some c =>
      let dx_relative := sdx - c.dx
      let dy_relative := sdy - c.dy
      let screen_x := max 0 (min ((W : ℤ) - 1) (CENTER_X + pyInt (dir_x * dx_relative * SCALE_X)))
      let screen_y := max 0 (min ((H : ℤ) - 1) (CENTER_Y + pyInt (dir_y * dy_relative * SCALE_Y)))
      some (screen_x, screen_y)

/-- The smoothing step of `check_gaze` (lines 99–100) in isolation:
`int(prev + 0.2 * (target - prev))`, one axis. -/
def smooth (prev target : ℤ) : ℤ :=
  pyInt ((prev : ℚ) + (1/5) * ((target : ℚ) - (prev : ℚ)))

/-- The button loop's hit test in isolation: index of the first button whose
rectangle contains `(x, y)`. -/
def firstHit (buttons : List Rect) (x y : ℤ) : Option ℕ :=
  buttons.findIdx? fun b => b.containsP x y

/-- The dwell/click logic of `check_gaze` (lines 105–121) in isolation, as a
step function on `DwellState`: given the hit-test result and the clock, return
the next dwell state and the clicked button (if any). -/
def dwellStep (d : DwellState) (hit : Option ℕ) (now : ℤ) : DwellState × Option ℕ :=
  match hit with
  | some i =>
    if d.hovered ≠ some i then (⟨some i, some now⟩, none)
    else if hasExpired d.timer now 2000 then (⟨some i, none⟩, some i)
    else (d, none)
  | none => (⟨none, none⟩, none)

/-- Iterated `check_gaze` over a schedule of ticks `(now, sdx, sdy)` with a
fixed screen, calibration table and button list, collecting the clicked
buttons in order. -/
def runTicks (W H : ℕ) (table : CalibTable) (buttons : List Rect) :
    List (ℤ × ℚ × ℚ) → GazeState → Except PyError (GazeState × List ℕ)
  | [], st => .ok (st, [])
  | (now, sdx, sdy) :: rest, st =>
    match check_gaze W H table buttons now sdx sdy st with
    | .error err => .error err
    | .ok r =>
      match runTicks W H table buttons rest r.state with
      | .error err => .error err
      | .ok (fin, clicks) => .ok (fin, r.clicked.toList ++ clicks)

/-- A small two-anchor calibration table used for concrete runs: the Center
anchor at mean offset `(0, 0)` and a second anchor at `(1, 1)`, all with one
sample. On a `1000 × 1000` screen this gives `SCALE_X = SCALE_Y = 1250`. -/
def tinyTable : CalibTable :=
  [("Center", ⟨1, 0, 0, 0, 1⟩), ("A", ⟨1, 0, 1, 1, 1⟩)]

/-! ## The accuracy evaluator (`src/calibration_ui.py`) -/

/-- The `positions` map of `calibration_ui.py`: the nine anchors with their
normalized screen position `(x_frac, y_frac)` and calibration key. -/
def positions : List (String × (ℚ × ℚ × Char)) :=
  [("Top-Left",     (0,   0,   'q')),
   ("Top",          (1/2, 0,   'w')),
   ("Top-Right",    (1,   0,   'e')),
   ("Far-Left",     (0,   1/2, 'a')),
   ("Center",       (1/2, 1/2, 'c')),
   ("Far-Right",    (1,   1/2, 'd')),
   ("Bottom-Left",  (0,   1,   'z')),
   ("Bottom",       (1/2, 1,   's')),
   ("Bottom-Right", (1,   1,   'x'))]

/-- The entry loop of `CalibrationWindow.run_evaluation` (lines 132–154):
walks the loaded calibration table, skips entries whose value is not a
5-element list (`len(values) != 5`) or whose name is not a known anchor
(`name not in positions`), and collects `(predicted, ground_truth)` pairs with
`predicted = (gx + dx*w, gy + dy*w)`, `ground_truth = (gx, gy) = (x_frac*W,
y_frac*H)`. -/
def evalPairs (W H : ℚ) : List (String × List ℚ) → List ((ℚ × ℚ) × (ℚ × ℚ))
  | [] => []
  | (name, values) :: rest =>
    if values.length ≠ 5 then evalPairs W H rest
    else
      match positions.lookup name with
      | none => evalPairs W H rest
      | some (x_frac, y_frac, _) =>
        let gx := x_frac * W
        let gy := y_frac * H
        let dx := values[2]!
        let dy := values[3]!
        let w := values[4]!
        ((gx + dx * w, gy + dy * w), (gx, gy)) :: evalPairs W H rest

/-- Squared Euclidean distance between a predicted and a ground-truth point.
The source computes `np.linalg.norm(pred - gt)`; distances are carried squared
so the development stays in `ℚ` (`d < t ↔ d² < t²` for `d, t ≥ 0`). -/
def distSq (p g : ℚ × ℚ) : ℚ := (p.1 - g.1) ^ 2 + (p.2 - g.2) ^ 2

/-- The per-entry squared distance errors (`euclidean` in the source,
squared). -/
def sqErrorsOf (pairs : List ((ℚ × ℚ) × (ℚ × ℚ))) : List ℚ :=
  pairs.map fun pg => distSq pg.1 pg.2

/-- `(euclidean < t).sum() / len(euclidean)` of the source, over squared
distances: the fraction of entries whose distance error is strictly below the
radius `t` (equivalently, squared error below `t²`). -/
def accuracyAt (es : List ℚ) (t : ℚ) : ℚ :=
  ((es.countP fun s => decide (s < t * t)) : ℚ) / (es.length : ℚ)

/-- The evaluation summary produced by `run_evaluation`: the collected pairs,
their (squared) distance errors, the fixed thresholds, and the accuracy
fraction at each threshold. The source additionally reports the mean distance
and the mean angular error, which are functions of the `pairs` field
(they involve `sqrt`/`acos` and are not carried here). -/
structure EvalSummary where
  pairs : List ((ℚ × ℚ) × (ℚ × ℚ))
  distErrorsSq : List ℚ
  thresholds : List ℚ
  accuracyFracs : List ℚ
deriving DecidableEq, Repr

/-- `CalibrationWindow.run_evaluation` (lines 124–233): collect the valid
entries' predicted/ground-truth pairs; if none, print and return with no
summary (`none`); otherwise produce the summary with the fixed threshold set
`{20, 40, 60, 80, 100}`. -/
def run_evaluation (W H : ℚ) (calib : List (String × List ℚ)) : Option EvalSummary :=
  let pairs := evalPairs W H calib
  if pairs.isEmpty then none
  else
    some ⟨pairs, sqErrorsOf pairs, [20, 40, 60, 80, 100],
      [20, 40, 60, 80, 100].map (accuracyAt (sqErrorsOf pairs))⟩

/-- An entry of the calibration table that `run_evaluation` does not skip:
value a 5-element list and name a known anchor. -/
def validEntry (e : String × List ℚ) : Bool :=
  decide (e.2.length = 5) && (positions.lookup e.1).isSome

/-- The calibration table of the spec's "perfect calibration" example on a
`1000 × 1000` screen: every anchor's stored mean equals its ground-truth
anchor position (`dx = x_frac * W`, `dy = y_frac * H`, `width = 1`), one
sample per anchor. -/
def specPerfectTable : List (String × List ℚ) :=
  [("Top-Left",     [1, 0, 0,    0,    1]),
   ("Top",          [1, 0, 500,  0,    1]),
   ("Top-Right",    [1, 0, 1000, 0,    1]),
   ("Far-Left",     [1, 0, 0,    500,  1]),
   ("Center",       [1, 0, 500,  500,  1]),
   ("Far-Right",    [1, 0, 1000, 500,  1]),
   ("Bottom-Left",  [1, 0, 0,    1000, 1]),
   ("Bottom",       [1, 0, 500,  1000, 1]),
   ("Bottom-Right", [1, 0, 1000, 1000, 1])]

/-- The table in which every anchor's stored mean offset is zero
(`dx = dy = 0`, `width = 1`, one sample per anchor) — the table for which the
evaluator's reconstruction `predicted = groundTruth + (dx, dy) * w` actually
reproduces the ground truth. -/
def zeroOffsetTable : List (String × List ℚ) :=
  [("Top-Left",     [1, 0, 0, 0, 1]),
   ("Top",          [1, 0, 0, 0, 1]),
   ("Top-Right",    [1, 0, 0, 0, 1]),
   ("Far-Left",     [1, 0, 0, 0, 1]),
   ("Center",       [1, 0, 0, 0, 1]),
   ("Far-Right",    [1, 0, 0, 0, 1]),
   ("Bottom-Left",  [1, 0, 0, 0, 1]),
   ("Bottom",       [1, 0, 0, 0, 1]),
   ("Bottom-Right", [1, 0, 0, 0, 1])]

/-- A calibration table in which the "A" anchor was sealed with **zero
samples** (`count = 0`). -/
def zeroCountTable : CalibTable :=
  [("Center", ⟨1, 0, 0, 0, 1⟩), ("A", ⟨0, 0, 1, 1, 1⟩)]

/-- A single button whose global rectangle is `[90, 110] × [90, 110]`. -/
def demoRect : Rect := ⟨90, 90, 110, 110⟩

/-- An uninterrupted dwell on button 0: the projected point `(100, 100)` lies
inside `demoRect` on every tick; ticks at 0 ms, 2100 ms and 2200 ms. -/
def dwellTicks : List (ℤ × ℚ × ℚ) :=
  [(0, (8/25, -8/25)), (2100, (8/25, -8/25)), (2200, (8/25, -8/25))]

/-! Evaluation lemmas for `evalPairs`, used to run the evaluator on concrete
tables one entry at a time (anchor lookups are discharged by `rfl`). -/

theorem positions_lookup_TL : positions.lookup "Top-Left" = some (0, 0, 'q') := rfl

theorem positions_lookup_T : positions.lookup "Top" = some (1/2, 0, 'w') := rfl

theorem positions_lookup_TR : positions.lookup "Top-Right" = some (1, 0, 'e') := rfl

theorem positions_lookup_FL : positions.lookup "Far-Left" = some (0, 1/2, 'a') := rfl

theorem positions_lookup_C : positions.lookup "Center" = some (1/2, 1/2, 'c') := rfl

theorem positions_lookup_FR : positions.lookup "Far-Right" = some (1, 1/2, 'd') := rfl

theorem positions_lookup_BL : positions.lookup "Bottom-Left" = some (0, 1, 'z') := rfl

theorem positions_lookup_B : positions.lookup "Bottom" = some (1/2, 1, 's') := rfl

theorem positions_lookup_BR : positions.lookup "Bottom-Right" = some (1, 1, 'x') := rfl

/-! ## Basic lemmas about `pyInt` and the smoothing step -/

theorem none_eq_some_false {α : Type} (a : α) :
    ((none : Option α) = some a) = False :=
  eq_false fun h => Option.noConfusion h

theorem some_eq_none_false {α : Type} (a : α) :
    ((some a : Option α) = none) = False :=
  eq_false fun h => Option.noConfusion h

theorem pyInt_of_nonneg {q : ℚ} (h : 0 ≤ q) : pyInt q = ⌊q⌋ := if_pos h

theorem pyInt_zero : pyInt 0 = 0 := by simp [pyInt]

/-- The value smoothed, as a rational, before truncation. -/
theorem smooth_def (p t : ℤ) :
    smooth p t = pyInt ((p : ℚ) + (1/5) * ((t : ℚ) - (p : ℚ))) := rfl

theorem smooth_arg_nonneg {p t : ℤ} (hp : 0 ≤ p) (ht : 0 ≤ t) :
    (0 : ℚ) ≤ (p : ℚ) + (1/5) * ((t : ℚ) - (p : ℚ)) := by
  have hp' : (0 : ℚ) ≤ (p : ℚ) := by exact_mod_cast hp
  have ht' : (0 : ℚ) ≤ (t : ℚ) := by exact_mod_cast ht
  linarith

theorem smooth_eq_floor {p t : ℤ} (hp : 0 ≤ p) (ht : 0 ≤ t) :
    smooth p t = ⌊(p : ℚ) + (1/5) * ((t : ℚ) - (p : ℚ))⌋ :=
  pyInt_of_nonneg (smooth_arg_nonneg hp ht)

theorem smooth_nonneg {p t : ℤ} (hp : 0 ≤ p) (ht : 0 ≤ t) : 0 ≤ smooth p t := by
  rw [smooth_eq_floor hp ht]
  exact Int.le_floor.mpr (by exact_mod_cast smooth_arg_nonneg hp ht)

/-- Starting below the target, one smoothing step does not move backwards. -/
theorem self_le_smooth {p t : ℤ} (hp : 0 ≤ p) (hpt : p ≤ t) : p ≤ smooth p t := by
  have ht : 0 ≤ t := le_trans hp hpt
  rw [smooth_eq_floor hp ht]
  refine Int.le_floor.mpr ?_
  have h' : (p : ℚ) ≤ (t : ℚ) := by exact_mod_cast hpt
  linarith

/-- Starting below the target, one smoothing step does not overshoot it. -/
theorem smooth_le_target {p t : ℤ} (hp : 0 ≤ p) (hpt : p ≤ t) : smooth p t ≤ t := by
  have ht : 0 ≤ t := le_trans hp hpt
  rw [smooth_eq_floor hp ht]
  have h' : (p : ℚ) ≤ (t : ℚ) := by exact_mod_cast hpt
  calc ⌊(p : ℚ) + (1/5) * ((t : ℚ) - (p : ℚ))⌋ ≤ ⌊(t : ℚ)⌋ :=
        Int.floor_le_floor (by linarith)
    _ = t := Int.floor_intCast t

/-- Starting above the target, one smoothing step does not undershoot it. -/
theorem target_le_smooth {p t : ℤ} (ht : 0 ≤ t) (hpt : t ≤ p) : t ≤ smooth p t := by
  have hp : 0 ≤ p := le_trans ht hpt
  rw [smooth_eq_floor hp ht]
  refine Int.le_floor.mpr ?_
  have h' : (t : ℚ) ≤ (p : ℚ) := by exact_mod_cast hpt
  linarith

/-- Starting above the target, one smoothing step does not move upwards. -/
theorem smooth_le_self {p t : ℤ} (ht : 0 ≤ t) (hpt : t ≤ p) : smooth p t ≤ p := by
  have hp : 0 ≤ p := le_trans ht hpt
  rw [smooth_eq_floor hp ht]
  have h' : (t : ℚ) ≤ (p : ℚ) := by exact_mod_cast hpt
  calc ⌊(p : ℚ) + (1/5) * ((t : ℚ) - (p : ℚ))⌋ ≤ ⌊(p : ℚ)⌋ :=
        Int.floor_le_floor (by linarith)
    _ = p := Int.floor_intCast p

/-- Strictly above the target, one smoothing step strictly decreases. -/
theorem smooth_lt_self {p t : ℤ} (ht : 0 ≤ t) (hpt : t < p) : smooth p t < p := by
  have hp : 0 ≤ p := le_trans ht (le_of_lt hpt)
  rw [smooth_eq_floor hp ht]
  refine Int.floor_lt.mpr ?_
  have h' : (t : ℚ) < (p : ℚ) := by exact_mod_cast hpt
  linarith

/-- The fixed points of the truncated smoothing step: the step leaves `p`
unchanged exactly when the target is at most 4 pixels above `p` (including
`p` itself). -/
theorem smooth_eq_self_iff {p t : ℤ} (hp : 0 ≤ p) (ht : 0 ≤ t) :
    smooth p t = p ↔ 0 ≤ t - p ∧ t - p ≤ 4 := by
  rw [smooth_eq_floor hp ht, Int.floor_eq_iff]
  constructor
  · rintro ⟨h1, h2⟩
    have h1' : (0 : ℚ) ≤ (t : ℚ) - (p : ℚ) := by linarith
    have h2' : (t : ℚ) - (p : ℚ) < 5 := by linarith
    have h1'' : (0 : ℤ) ≤ t - p := by exact_mod_cast (by push_cast; linarith : (0:ℚ) ≤ ((t - p : ℤ) : ℚ))
    have h2'' : (t - p : ℤ) < 5 := by exact_mod_cast (by push_cast; linarith : ((t - p : ℤ) : ℚ) < 5)
    exact ⟨h1'', by omega⟩
  · rintro ⟨h1, h2⟩
    have h1' : (0 : ℚ) ≤ ((t - p : ℤ) : ℚ) := by exact_mod_cast h1
    have h2' : ((t - p : ℤ) : ℚ) ≤ 4 := by exact_mod_cast h2
    push_cast at h1' h2'
    constructor
    · linarith
    · linarith

/-! ## Decomposition of the `check_gaze` tick into its pipeline stages -/

/-- A successfully projected point is the clamped point, hence lies in the
first quadrant. -/
theorem projectPoint_nonneg {W H : ℕ} {table : CalibTable} {sdx sdy : ℚ} {pt : ℤ × ℤ}
    (hpt : projectPoint W H table sdx sdy = some pt) : 0 ≤ pt.1 ∧ 0 ≤ pt.2 := by
  match table with
  | [] => simp [projectPoint] at hpt
  | e :: rest =>
    simp only [projectPoint] at hpt
    rcases hc : (e :: rest).lookup "Center" with _ | c <;> rw [hc] at hpt
    · simp at hpt
    · simp only [Option.some.injEq] at hpt
      obtain rfl := hpt.symm
      constructor <;> simp

/-- `check_gaze` is the composition of the stages `projectPoint` (projection
and clamping), `smooth` (per-axis cursor smoothing of the previous cursor
toward the projected point), `firstHit` at the *projected* point, and
`dwellStep` (the hover/click update). -/
theorem check_gaze_eq_pieces (W H : ℕ) (table : CalibTable) (buttons : List Rect)
    (now : ℤ) (sdx sdy : ℚ) (st : GazeState) (pt : ℤ × ℤ)
    (hpt : projectPoint W H table sdx sdy = some pt) :
    check_gaze W H table buttons now sdx sdy st =
      .ok ⟨⟨(smooth st.prevCursor.1 pt.1, smooth st.prevCursor.2 pt.2),
            (dwellStep st.dwell (firstHit buttons pt.1 pt.2) now).1⟩,
           (smooth st.prevCursor.1 pt.1, smooth st.prevCursor.2 pt.2),
           (dwellStep st.dwell (firstHit buttons pt.1 pt.2) now).2⟩ := by
  match table with
  | [] => simp [projectPoint] at hpt
  | e :: rest =>
    simp only [projectPoint] at hpt
    rcases hc : (e :: rest).lookup "Center" with _ | c <;> rw [hc] at hpt
    · simp at hpt
    · obtain ⟨ptx, pty⟩ := pt
      simp only [Option.some.injEq, Prod.mk.injEq] at hpt
      simp only [check_gaze, hc, hpt.1, hpt.2]
      rcases hfind : List.findIdx? (fun b => b.containsP ptx pty) buttons with _ | i
      · simp [dwellStep, firstHit, smooth, hfind]
      · by_cases hh : st.dwell.hovered = some i
        · by_cases hexp : hasExpired st.dwell.timer now 2000 = true
          · simp [dwellStep, firstHit, smooth, hfind, hh, hexp]
          · simp [dwellStep, firstHit, smooth, hfind, hh, hexp]
        · simp [dwellStep, firstHit, smooth, hfind, hh]

/-! ## Claim C6 -/

/-- **C6** (confirmed): for every valid calibration table containing a
"Center" record, with all sample counts at least 1, projecting the Center
anchor's own mean sample (`sdx = originDx`, `sdy = originDy`) yields exactly
the screen center `(W // 2, H // 2)` — exactly, since the embedding's
arithmetic is exact. -/
theorem center_sample_maps_to_screen_center (W H : ℕ) (table : CalibTable)
    (c : CalibRecord) (hc : table.lookup "Center" = some c)
    (hcount : ∀ e ∈ table, 1 ≤ e.2.count) :
    projectPoint W H table c.dx c.dy = some (((W / 2 : ℕ) : ℤ), ((H / 2 : ℕ) : ℤ)) := by
  match table with
  | [] => simp [List.lookup] at hc
  | e :: rest =>
    simp only [projectPoint, hc]
    simp only [sub_self, mul_zero, zero_mul, neg_mul, one_mul, neg_zero, pyInt_zero,
      add_zero, Option.some.injEq, Prod.mk.injEq]
    constructor <;> omega

/-- Witness for C6 at a concrete table and screen. -/
theorem center_sample_maps_to_screen_center_witness :
    tinyTable.lookup "Center" = some ⟨1, 0, 0, 0, 1⟩ ∧
    (∀ e ∈ tinyTable, 1 ≤ e.2.count) ∧
    projectPoint 10 10 tinyTable (0 : ℚ) (0 : ℚ) = some (5, 5) :=
  ⟨rfl, by norm_num [tinyTable],
    center_sample_maps_to_screen_center 10 10 tinyTable ⟨1, 0, 0, 0, 1⟩ rfl
      (by norm_num [tinyTable])⟩

/-! ## Claim C7 -/

/-- **C7** (confirmed): for arbitrary finite input offsets and any
calibration table that projects at all, the projected screen position lies
within `[0, W−1] × [0, H−1]`. -/
theorem project_output_in_bounds (W H : ℕ) (table : CalibTable) (sdx sdy : ℚ)
    (p : ℤ × ℤ) (hW : 1 ≤ W) (hH : 1 ≤ H)
    (hp : projectPoint W H table sdx sdy = some p) :
    0 ≤ p.1 ∧ p.1 ≤ (W : ℤ) - 1 ∧ 0 ≤ p.2 ∧ p.2 ≤ (H : ℤ) - 1 := by
  match table with
  | [] => simp [projectPoint] at hp
  | e :: rest =>
    simp only [projectPoint] at hp
    rcases hc : (e :: rest).lookup "Center" with _ | c <;> rw [hc] at hp
    · simp at hp
    · obtain ⟨px, py⟩ := p
      simp only [Option.some.injEq, Prod.mk.injEq] at hp
      obtain ⟨h1, h2⟩ := hp
      subst h1; subst h2
      refine ⟨?_, ?_, ?_, ?_⟩ <;> omega

/-- Witness for C7 at a concrete table, screen and a far-out-of-range
sample. -/
theorem project_output_in_bounds_witness :
    1 ≤ 10 ∧ projectPoint 10 10 tinyTable 37 (-5) = some (0, 0) ∧
    (0 ≤ ((0, 0) : ℤ × ℤ).1 ∧ ((0, 0) : ℤ × ℤ).1 ≤ (10 : ℤ) - 1 ∧
     0 ≤ ((0, 0) : ℤ × ℤ).2 ∧ ((0, 0) : ℤ × ℤ).2 ≤ (10 : ℤ) - 1) :=
  ⟨by norm_num,
   by norm_num [projectPoint, tinyTable, maxOf, minOf, pyInt, max_def, min_def,
     List.lookup, String.reduceBEq, Int.ceil_neg],
   by
    have h := project_output_in_bounds 10 10 tinyTable 37 (-5) (0, 0)
      (by norm_num) (by norm_num)
      (by norm_num [projectPoint, tinyTable, maxOf, minOf, pyInt, max_def, min_def,
        List.lookup, String.reduceBEq, Int.ceil_neg])
    exact h⟩

/-! ## Claim C8 -/

/-- **C8** (counterexample): the claim "the smoothed position converges to
the target" fails: with the cursor at 0 and the projected target held at 4,
the smoothing step `int(prev + 0.2 * (target - prev))` returns 0, so the
cursor never moves at all and never reaches the target. -/
theorem smoothing_stalls_below_target_cex : smooth 0 4 = 0 ∧ (4 : ℤ) ≠ 0 := by
  constructor
  · norm_num [smooth, pyInt]
  · norm_num

/-- **C8** (amended): one smoothing step from a nonnegative position toward a
nonnegative constant target stays between the position and the target (so the
trajectory is monotone and never overshoots), strictly decreases when above
the target, and is stationary exactly when `0 ≤ target − position ≤ 4`: the
trajectory converges to a fixed point at most 4 pixels below the target (not
necessarily the target itself; from above it reaches the target exactly, and
at the target it stays). -/
theorem smooth_step_behavior (p t : ℤ) (hp : 0 ≤ p) (ht : 0 ≤ t) :
    (p ≤ t → p ≤ smooth p t ∧ smooth p t ≤ t) ∧
    (t ≤ p → t ≤ smooth p t ∧ smooth p t ≤ p) ∧
    (t < p → smooth p t < p) ∧
    (smooth p t = p ↔ 0 ≤ t - p ∧ t - p ≤ 4) :=
  ⟨fun h => ⟨self_le_smooth hp h, smooth_le_target hp h⟩,
   fun h => ⟨target_le_smooth ht h, smooth_le_self ht h⟩,
   fun h => smooth_lt_self ht h,
   smooth_eq_self_iff hp ht⟩

/-- Witness for C8 at `p = 10`, `t = 20`. -/
theorem smooth_step_behavior_witness :
    (0 ≤ (10 : ℤ)) ∧ (0 ≤ (20 : ℤ)) ∧
    ((10 ≤ (20 : ℤ) → 10 ≤ smooth 10 20 ∧ smooth 10 20 ≤ 20) ∧
     ((20 : ℤ) ≤ 10 → 20 ≤ smooth 10 20 ∧ smooth 10 20 ≤ 10) ∧
     ((20 : ℤ) < 10 → smooth 10 20 < 10) ∧
     (smooth 10 20 = 10 ↔ 0 ≤ (20 : ℤ) - 10 ∧ (20 : ℤ) - 10 ≤ 4)) :=
  ⟨by norm_num, by norm_num, smooth_step_behavior 10 20 (by norm_num) (by norm_num)⟩

/-! ## Claim C9 -/

/-- **C9** (confirmed): for any fixed set of per-anchor (squared) distance
errors, accuracy-at-radius is monotonically non-decreasing in the radius, and
equals 1 whenever the radius strictly exceeds every per-anchor distance error
(in particular their maximum). Distances are carried squared: radius `r`
bounds error `e` iff `e² < r²`. -/
theorem accuracy_monotone_and_saturates (es : List ℚ) (t₁ t₂ r : ℚ) :
    (0 ≤ t₁ → t₁ ≤ t₂ → accuracyAt es t₁ ≤ accuracyAt es t₂) ∧
    (es ≠ [] → 0 ≤ r → (∀ s ∈ es, s < r * r) → accuracyAt es r = 1) := by
  constructor
  · intro h0 h12
    unfold accuracyAt
    rcases eq_or_ne es [] with rfl | hne
    · simp
    · have hlen : (0 : ℚ) < (es.length : ℚ) := by
        have := List.length_pos.mpr hne
        exact_mod_cast this
      have hcount : es.countP (fun s => decide (s < t₁ * t₁)) ≤
          es.countP (fun s => decide (s < t₂ * t₂)) := by
        refine List.countP_mono_left ?_
        intro s _ hs
        simp only [decide_eq_true_eq] at hs ⊢
        have : t₁ * t₁ ≤ t₂ * t₂ := mul_self_le_mul_self h0 h12
        linarith
      have hcount' : ((es.countP fun s => decide (s < t₁ * t₁)) : ℚ) ≤
          ((es.countP fun s => decide (s < t₂ * t₂)) : ℚ) := by exact_mod_cast hcount
      exact div_le_div_of_nonneg_right hcount' hlen.le
  · intro hne _ hall
    unfold accuracyAt
    have hfull : es.countP (fun s => decide (s < r * r)) = es.length := by
      refine List.countP_eq_length.mpr ?_
      intro s hs
      simpa using hall s hs
    rw [hfull]
    have hlen : ((es.length : ℚ)) ≠ 0 := by
      have := List.length_pos.mpr hne
      positivity
    exact div_self hlen

/-- Witness for C9 on the squared-error set `{0, 9}` (errors 0 and 3),
radii 2 ≤ 3 and saturation radius 4. -/
theorem accuracy_monotone_and_saturates_witness :
    (0 ≤ (2 : ℚ)) ∧ ((2 : ℚ) ≤ 3) ∧ (([0, 9] : List ℚ) ≠ []) ∧ (0 ≤ (4 : ℚ)) ∧
    (∀ s ∈ ([0, 9] : List ℚ), s < 4 * 4) ∧
    accuracyAt [0, 9] 2 ≤ accuracyAt [0, 9] 3 ∧ accuracyAt [0, 9] 4 = 1 := by
  have h := accuracy_monotone_and_saturates [0, 9] 2 3 4
  exact ⟨by norm_num, by norm_num, by simp, by norm_num,
    by norm_num [List.forall_mem_cons],
    h.1 (by norm_num) (by norm_num),
    h.2 (by simp) (by norm_num) (by norm_num [List.forall_mem_cons])⟩

/-! ## Claim C10 -/

/-- Skipped entries contribute nothing: the collected pairs of a table are
those of its valid entries. -/
theorem evalPairs_filter_valid (W H : ℚ) :
    ∀ calib : List (String × List ℚ),
      evalPairs W H (calib.filter validEntry) = evalPairs W H calib := by
  intro calib
  induction calib with
  | nil => rfl
  | cons e rest ih =>
    obtain ⟨name, values⟩ := e
    by_cases h5 : values.length = 5
    · rcases hl : positions.lookup name with _ | ⟨x, y, k⟩
      · have hv : validEntry (name, values) = false := by simp [validEntry, hl]
        simp [List.filter_cons, hv, evalPairs, h5, hl, ih]
      · have hv : validEntry (name, values) = true := by simp [validEntry, h5, hl]
        simp [List.filter_cons, hv, evalPairs, h5, hl, ih]
    · have hv : validEntry (name, values) = false := by simp [validEntry, h5]
      simp [List.filter_cons, hv, evalPairs, h5, ih]

/-- One pair is collected per valid entry. -/
theorem evalPairs_length (W H : ℚ) :
    ∀ calib : List (String × List ℚ),
      (evalPairs W H calib).length = (calib.filter validEntry).length := by
  intro calib
  induction calib with
  | nil => rfl
  | cons e rest ih =>
    obtain ⟨name, values⟩ := e
    by_cases h5 : values.length = 5
    · rcases hl : positions.lookup name with _ | ⟨x, y, k⟩
      · have hv : validEntry (name, values) = false := by simp [validEntry, hl]
        simp [List.filter_cons, hv, evalPairs, h5, hl, ih]
      · have hv : validEntry (name, values) = true := by simp [validEntry, h5, hl]
        simp [List.filter_cons, hv, evalPairs, h5, hl, ih]
    · have hv : validEntry (name, values) = false := by simp [validEntry, h5]
      simp [List.filter_cons, hv, evalPairs, h5, ih]

/-- **C10** (confirmed): the evaluator skips exactly the entries whose value
is not a 5-element list or whose name is not one of the 9 anchors — its whole
output (hence every statistic it reports) is computed from the valid entries
alone — and when no entry qualifies it produces no summary at all (`none`)
rather than a summary over an empty set. -/
theorem evaluator_skips_invalid_entries (W H : ℚ) (calib : List (String × List ℚ)) :
    run_evaluation W H calib = run_evaluation W H (calib.filter validEntry) ∧
    (run_evaluation W H calib = none ↔ calib.filter validEntry = []) := by
  constructor
  · simp only [run_evaluation, evalPairs_filter_valid]
  · simp only [run_evaluation]
    rcases hpairs : evalPairs W H calib with _ | ⟨pr, prs⟩
    · have hlen : (calib.filter validEntry).length = 0 := by
        rw [← evalPairs_length W H calib, hpairs]
        simp
      simp [List.length_eq_zero.mp hlen]
    · have hlen : (calib.filter validEntry).length = (pr :: prs).length := by
        rw [← evalPairs_length W H calib, hpairs]
      constructor
      · intro h
        simp at h
      · intro h
        rw [h] at hlen
        simp at hlen

/-! ## Claim C2 -/

/-- **C2** (counterexample): entering the per-tick mapping with a table in
which a record has sample count 0 does **not** fail: the tick never inspects
sample counts, raises nothing, and proceeds to map the sample normally. The
claim's `DegenerateCalibration` error does not exist anywhere in the code. -/
theorem zero_count_build_succeeds_cex :
    check_gaze 1000 1000 zeroCountTable [] 0 0 0 ⟨(0, 0), ⟨none, none⟩⟩ =
      .ok ⟨⟨(100, 100), ⟨none, none⟩⟩, (100, 100), none⟩ := by
  norm_num [check_gaze, zeroCountTable, maxOf, minOf, pyInt, max_def, min_def,
    List.lookup, String.reduceBEq, List.findIdx?, hasExpired]

/-- **C2** (amended): building the per-tick mapping from a calibration table
never fails on sample counts — the only failure the mapping can raise is for
a missing "Center" record (or an empty table); any table with a "Center"
record, zero-count records included, is accepted and used to map samples. -/
theorem check_gaze_ok_of_center_record (W H : ℕ) (table : CalibTable)
    (buttons : List Rect) (now : ℤ) (sdx sdy : ℚ) (st : GazeState)
    (h : (table.lookup "Center").isSome) :
    ∃ r, check_gaze W H table buttons now sdx sdy st = .ok r := by
  match table with
  | [] => simp [List.lookup] at h
  | e :: rest =>
    obtain ⟨c, hc⟩ := Option.isSome_iff_exists.mp h
    simp only [check_gaze, hc]
    repeat' split
    all_goals exact ⟨_, rfl⟩

/-- Witness for C2's amended claim: the zero-count table has a "Center"
record, and the tick succeeds on it. -/
theorem check_gaze_ok_of_center_record_witness :
    (zeroCountTable.lookup "Center").isSome = true ∧
    ∃ r, check_gaze 1000 1000 zeroCountTable [] 0 0 0 ⟨(0, 0), ⟨none, none⟩⟩ = .ok r :=
  ⟨rfl, check_gaze_ok_of_center_record 1000 1000 zeroCountTable [] 0 0 0
    ⟨(0, 0), ⟨none, none⟩⟩ rfl⟩

/-! ## Claim C3 -/

/-- **C3** (counterexample): on a tick with previous cursor `(0, 0)` whose
sample projects to `(100, 100)`, the smoothed cursor for the tick is
`(20, 20)`, which lies inside **no** button — yet the tick starts hovering
button 0. The point tested for containment is the projected position, not the
smoothed cursor position. -/
theorem hit_test_not_smoothed_cex :
    check_gaze 1000 1000 tinyTable [demoRect] 0 (8/25) (-8/25) ⟨(0, 0), ⟨none, none⟩⟩ =
      .ok ⟨⟨(20, 20), ⟨some 0, some 0⟩⟩, (20, 20), none⟩ ∧
    firstHit [demoRect] 20 20 = none := by
  constructor
  · norm_num [check_gaze, tinyTable, demoRect, maxOf, minOf, pyInt, max_def, min_def,
      List.lookup, String.reduceBEq, List.findIdx?, Rect.containsP, hasExpired, Int.ceil_neg,
      none_eq_some_false, some_eq_none_false]
  · norm_num [firstHit, demoRect, List.findIdx?, Rect.containsP]

/-- **C3** (amended): on every tick, the dwell decision (hover state and
click) is the dwell step applied to the first button containing the
**projected clamped** point of this tick, while the smoothed cursor position
is only what the OS cursor is moved to. -/
theorem tick_decomposes_at_projected_point (W H : ℕ) (table : CalibTable)
    (buttons : List Rect) (now : ℤ) (sdx sdy : ℚ) (st : GazeState)
    (pt : ℤ × ℤ) (r : GazeResult)
    (hpt : projectPoint W H table sdx sdy = some pt)
    (hr : check_gaze W H table buttons now sdx sdy st = .ok r) :
    r.state.prevCursor = (smooth st.prevCursor.1 pt.1, smooth st.prevCursor.2 pt.2) ∧
    r.moveTo = r.state.prevCursor ∧
    r.state.dwell = (dwellStep st.dwell (firstHit buttons pt.1 pt.2) now).1 ∧
    r.clicked = (dwellStep st.dwell (firstHit buttons pt.1 pt.2) now).2 := by
  rw [check_gaze_eq_pieces W H table buttons now sdx sdy st pt hpt] at hr
  simp only [Except.ok.injEq] at hr
  obtain rfl := hr
  exact ⟨rfl, rfl, rfl, rfl⟩

/-- Witness for C3's amended claim at the counterexample's tick. -/
theorem tick_decomposes_at_projected_point_witness :
    projectPoint 1000 1000 tinyTable (8/25) (-8/25) = some (100, 100) ∧
    check_gaze 1000 1000 tinyTable [demoRect] 0 (8/25) (-8/25) ⟨(0, 0), ⟨none, none⟩⟩ =
      .ok ⟨⟨(20, 20), ⟨some 0, some 0⟩⟩, (20, 20), none⟩ ∧
    ((20, 20) : ℤ × ℤ) = (smooth 0 100, smooth 0 100) ∧
    ((20, 20) : ℤ × ℤ) = ((20, 20) : ℤ × ℤ) ∧
    (⟨some 0, some 0⟩ : DwellState) = (dwellStep ⟨none, none⟩ (firstHit [demoRect] 100 100) 0).1 ∧
    (none : Option ℕ) = (dwellStep ⟨none, none⟩ (firstHit [demoRect] 100 100) 0).2 := by
  have hpt : projectPoint 1000 1000 tinyTable (8/25) (-8/25) = some (100, 100) := by
    norm_num [projectPoint, tinyTable, maxOf, minOf, pyInt, max_def, min_def,
      List.lookup, String.reduceBEq, Int.ceil_neg]
  have hr : check_gaze 1000 1000 tinyTable [demoRect] 0 (8/25) (-8/25)
      ⟨(0, 0), ⟨none, none⟩⟩ = .ok ⟨⟨(20, 20), ⟨some 0, some 0⟩⟩, (20, 20), none⟩ := by
    norm_num [check_gaze, tinyTable, demoRect, maxOf, minOf, pyInt, max_def, min_def,
      List.lookup, String.reduceBEq, List.findIdx?, Rect.containsP, hasExpired, Int.ceil_neg,
      none_eq_some_false, some_eq_none_false]
  have h := tick_decomposes_at_projected_point 1000 1000 tinyTable [demoRect] 0
    (8/25) (-8/25) ⟨(0, 0), ⟨none, none⟩⟩ (100, 100)
    ⟨⟨(20, 20), ⟨some 0, some 0⟩⟩, (20, 20), none⟩ hpt hr
  exact ⟨hpt, hr, h.1, h.2.1, h.2.2.1, h.2.2.2⟩

/-! ## Claim C4 -/

/-- **C4** (counterexample): with the sensor read returning the *same* value
on the second tick as on the first (offsets `(8/25, -8/25)`, projecting to
`(100, 100)`), the second tick is **not** a no-op for the cursor: the cursor
moves from `(20, 20)` to `(36, 36)`, a further smoothing step toward the
stale projected value. -/
theorem stale_sample_tick_moves_cursor_cex :
    check_gaze 1000 1000 tinyTable [] 0 (8/25) (-8/25) ⟨(0, 0), ⟨none, none⟩⟩ =
      .ok ⟨⟨(20, 20), ⟨none, none⟩⟩, (20, 20), none⟩ ∧
    check_gaze 1000 1000 tinyTable [] 100 (8/25) (-8/25) ⟨(20, 20), ⟨none, none⟩⟩ =
      .ok ⟨⟨(36, 36), ⟨none, none⟩⟩, (36, 36), none⟩ ∧
    ((36, 36) : ℤ × ℤ) ≠ (20, 20) := by
  refine ⟨?_, ?_, by norm_num⟩ <;>
    norm_num [check_gaze, tinyTable, maxOf, minOf, pyInt, max_def, min_def,
      List.lookup, String.reduceBEq, List.findIdx?, hasExpired, Int.ceil_neg]

/-- **C4** (amended): a tick whose sample read returns the same value as the
previous tick re-projects that stale sample and applies the smoothing step
again: the cursor stays between its previous position and the stale projected
point (moving toward it, never past it), and the tick is a no-op for the
cursor only when the cursor is already at a truncation fixed point
(`0 ≤ projected − cursor ≤ 4` on each axis) — not in general. -/
theorem stale_sample_tick_behavior (W H : ℕ) (table : CalibTable)
    (buttons : List Rect) (now₁ now₂ : ℤ) (sdx sdy : ℚ) (st : GazeState)
    (pt : ℤ × ℤ) (r₁ r₂ : GazeResult)
    (hpt : projectPoint W H table sdx sdy = some pt)
    (hx : 0 ≤ st.prevCursor.1) (hy : 0 ≤ st.prevCursor.2)
    (h₁ : check_gaze W H table buttons now₁ sdx sdy st = .ok r₁)
    (h₂ : check_gaze W H table buttons now₂ sdx sdy r₁.state = .ok r₂) :
    (min r₁.state.prevCursor.1 pt.1 ≤ r₂.state.prevCursor.1 ∧
        r₂.state.prevCursor.1 ≤ max r₁.state.prevCursor.1 pt.1) ∧
    (min r₁.state.prevCursor.2 pt.2 ≤ r₂.state.prevCursor.2 ∧
        r₂.state.prevCursor.2 ≤ max r₁.state.prevCursor.2 pt.2) ∧
    (r₂.state.prevCursor = r₁.state.prevCursor ↔
      (0 ≤ pt.1 - r₁.state.prevCursor.1 ∧ pt.1 - r₁.state.prevCursor.1 ≤ 4 ∧
       0 ≤ pt.2 - r₁.state.prevCursor.2 ∧ pt.2 - r₁.state.prevCursor.2 ≤ 4)) := by
  obtain ⟨hpx, hpy⟩ := projectPoint_nonneg hpt
  rw [check_gaze_eq_pieces W H table buttons now₁ sdx sdy st pt hpt] at h₁
  simp only [Except.ok.injEq] at h₁
  obtain rfl := h₁
  rw [check_gaze_eq_pieces W H table buttons now₂ sdx sdy _ pt hpt] at h₂
  simp only [Except.ok.injEq] at h₂
  obtain rfl := h₂
  dsimp only
  have ha₁ : 0 ≤ smooth st.prevCursor.1 pt.1 := smooth_nonneg hx hpx
  have ha₂ : 0 ≤ smooth st.prevCursor.2 pt.2 := smooth_nonneg hy hpy
  refine ⟨?_, ?_, ?_⟩
  · rcases le_total (smooth st.prevCursor.1 pt.1) pt.1 with h | h
    · have h1 := self_le_smooth ha₁ h
      have h2 := smooth_le_target ha₁ h
      omega
    · have h1 := target_le_smooth hpx h
      have h2 := smooth_le_self hpx h
      omega
  · rcases le_total (smooth st.prevCursor.2 pt.2) pt.2 with h | h
    · have h1 := self_le_smooth ha₂ h
      have h2 := smooth_le_target ha₂ h
      omega
    · have h1 := target_le_smooth hpy h
      have h2 := smooth_le_self hpy h
      omega
  · rw [Prod.mk.injEq, smooth_eq_self_iff ha₁ hpx, smooth_eq_self_iff ha₂ hpy]
    omega

/-- Witness for C4's amended claim: the counterexample's two ticks. -/
theorem stale_sample_tick_behavior_witness :
    projectPoint 1000 1000 tinyTable (8/25) (-8/25) = some (100, 100) ∧
    ((min 20 100 ≤ (36 : ℤ) ∧ (36 : ℤ) ≤ max 20 100) ∧
     (min 20 100 ≤ (36 : ℤ) ∧ (36 : ℤ) ≤ max 20 100) ∧
     (((36, 36) : ℤ × ℤ) = (20, 20) ↔
       (0 ≤ (100 : ℤ) - 20 ∧ (100 : ℤ) - 20 ≤ 4 ∧
        0 ≤ (100 : ℤ) - 20 ∧ (100 : ℤ) - 20 ≤ 4))) := by
  have hpt : projectPoint 1000 1000 tinyTable (8/25) (-8/25) = some (100, 100) := by
    norm_num [projectPoint, tinyTable, maxOf, minOf, pyInt, max_def, min_def,
      List.lookup, String.reduceBEq, Int.ceil_neg]
  have h₁ : check_gaze 1000 1000 tinyTable [] 0 (8/25) (-8/25) ⟨(0, 0), ⟨none, none⟩⟩ =
      .ok ⟨⟨(20, 20), ⟨none, none⟩⟩, (20, 20), none⟩ := by
    norm_num [check_gaze, tinyTable, maxOf, minOf, pyInt, max_def, min_def,
      List.lookup, String.reduceBEq, List.findIdx?, hasExpired, Int.ceil_neg]
  have h₂ : check_gaze 1000 1000 tinyTable [] 100 (8/25) (-8/25) ⟨(20, 20), ⟨none, none⟩⟩ =
      .ok ⟨⟨(36, 36), ⟨none, none⟩⟩, (36, 36), none⟩ := by
    norm_num [check_gaze, tinyTable, maxOf, minOf, pyInt, max_def, min_def,
      List.lookup, String.reduceBEq, List.findIdx?, hasExpired, Int.ceil_neg]
  have h := stale_sample_tick_behavior 1000 1000 tinyTable [] 0 100 (8/25) (-8/25)
    ⟨(0, 0), ⟨none, none⟩⟩ (100, 100) ⟨⟨(20, 20), ⟨none, none⟩⟩, (20, 20), none⟩
    ⟨⟨(36, 36), ⟨none, none⟩⟩, (36, 36), none⟩ hpt (by norm_num) (by norm_num) h₁ h₂
  exact ⟨hpt, h⟩

/-! ## Claim C5 -/

/-- **C5** (counterexample): on a `1000 × 1000` screen, the table built by
the spec's own construction (`dx = x_frac * W`, `dy = y_frac * H`,
`width = 1`) does **not** evaluate to mean error ≈ 0 and 100% accuracy: the
evaluator reconstructs `predicted = groundTruth + (dx, dy) * w`, so every
anchor except Top-Left lands far from its ground truth (the Center anchor's
squared distance error is 500000, i.e. ≈ 707 px), and accuracy is 1/9 at all
five thresholds, not 100%. -/
theorem spec_perfect_example_fails_cex :
    (run_evaluation 1000 1000 specPerfectTable).map EvalSummary.distErrorsSq =
      some [0, 250000, 1000000, 250000, 500000, 1250000, 1000000, 1250000, 2000000] ∧
    (run_evaluation 1000 1000 specPerfectTable).map EvalSummary.accuracyFracs =
      some [1/9, 1/9, 1/9, 1/9, 1/9] ∧
    (1/9 : ℚ) ≠ 1 := by
  refine ⟨?_, ?_, by norm_num⟩ <;>
  norm_num [run_evaluation, specPerfectTable, evalPairs, positions_lookup_TL,
    positions_lookup_T, positions_lookup_TR, positions_lookup_FL, positions_lookup_C,
    positions_lookup_FR, positions_lookup_BL, positions_lookup_B, positions_lookup_BR,
    sqErrorsOf, distSq, accuracyAt]

/-- **C5** (amended): the calibration table for which the evaluator is exact
is the one whose stored mean *offsets* are zero (`dx = dy = 0`, `width = 1`):
for it, on any screen, every distance error is exactly 0 and accuracy is 100%
at every threshold of at least 1 pixel. -/
theorem zero_offset_table_perfect (W H t : ℚ) (ht : 1 ≤ t) :
    sqErrorsOf (evalPairs W H zeroOffsetTable) = [0, 0, 0, 0, 0, 0, 0, 0, 0] ∧
    accuracyAt (sqErrorsOf (evalPairs W H zeroOffsetTable)) t = 1 := by
  have hpairs : sqErrorsOf (evalPairs W H zeroOffsetTable) = [0, 0, 0, 0, 0, 0, 0, 0, 0] := by
    norm_num [zeroOffsetTable, evalPairs, positions_lookup_TL, positions_lookup_T,
      positions_lookup_TR, positions_lookup_FL, positions_lookup_C, positions_lookup_FR,
      positions_lookup_BL, positions_lookup_B, positions_lookup_BR, sqErrorsOf, distSq]
  refine ⟨hpairs, ?_⟩
  rw [hpairs]
  have htt : (0 : ℚ) < t * t := by nlinarith
  norm_num [accuracyAt, htt]

/-- Witness for C5's amended claim on a `100 × 100` screen at threshold 1. -/
theorem zero_offset_table_perfect_witness :
    (1 ≤ (1 : ℚ)) ∧
    (sqErrorsOf (evalPairs 100 100 zeroOffsetTable) = [0, 0, 0, 0, 0, 0, 0, 0, 0] ∧
     accuracyAt (sqErrorsOf (evalPairs 100 100 zeroOffsetTable)) 1 = 1) :=
  ⟨by norm_num, zero_offset_table_perfect 100 100 1 (by norm_num)⟩

/-! ## Claim C1 -/

/-- **C1** (code bug): during one uninterrupted dwell on the same button, the
code clicks at 2100 ms (elapsed > 2000 ms), then — because it keeps
`hovered_button` set and only invalidates the `QElapsedTimer`, and an
invalidated `QElapsedTimer` reports as already expired — it clicks **again**
on the very next tick at 2200 ms, and the final state still hovers the button
(never returns to Idle). The spec's "exactly one activation per dwell, then
back to Idle" is violated. -/
theorem dwell_refires_after_activation :
    runTicks 1000 1000 tinyTable [demoRect] dwellTicks ⟨(0, 0), ⟨none, none⟩⟩ =
      .ok (⟨(48, 48), ⟨some 0, none⟩⟩, [0, 0]) := by
  norm_num [runTicks, dwellTicks, check_gaze, tinyTable, demoRect, maxOf, minOf, pyInt,
    max_def, min_def, List.lookup, String.reduceBEq, List.findIdx?, Rect.containsP,
    hasExpired, Int.ceil_neg, none_eq_some_false, some_eq_none_false]

end HandsFree
